import Mathlib

/-!
# Verification of the `inline-compare` checksum-and-compare pipeline

Shallow embedding of `inline-compare.go`.  File contents are lists of
bytes (`List Nat`), a checksum store is an association list from file
name to digest (Go map semantics: insertion replaces an existing
binding), the persisted checksum CSV is an optional list of parsed
rows, and a directory listing is a list of entries.  The external
`diff -u` utility is an abstract function returning its combined
output together with a success flag; the external `tail -n N` utility
is modelled in-process (`lastLines`).  The MD5 digest is an abstract
function parameter `hash`.
-/

namespace InlineCompare

/-- A checksum store: Go's `map[string]string` as an association list
with unique keys (insertion replaces an existing binding). -/
abbrev Store := List (String × String)

/-- Go map lookup `m[k]`: the zero value `""` when the key is absent. -/
def getStore : Store → String → String
  | [], _ => ""
  | p :: rest, k => if p.1 = k then p.2 else getStore rest k

/-- Go map membership. -/
def memStore : Store → String → Bool
  | [], _ => false
  | p :: rest, k => (p.1 == k) || memStore rest k

/-- Go map assignment `m[k] = v`: replaces the existing binding or appends. -/
def setStore : Store → String → String → Store
  | [], k, v => [(k, v)]
  | p :: rest, k, v => if p.1 = k then (k, v) :: rest else p :: setStore rest k v

/-- The keys of a store. -/
def storeKeys (s : Store) : List String := s.map (fun p => p.1)

/-- One entry of a directory listing, as returned by `ioutil.ReadDir`:
name, directory flag, and the file's byte content (`none` models an
unreadable file, whose open/read fails). -/
structure DirEntry where
  name : String
  isDir : Bool
  content : Option (List Nat)
deriving DecidableEq, Repr

/-- Result of a run of a stage of the Go program: a value, an error
return (`err != nil`), or a runtime panic. -/
inductive BuildResult (α : Type) where
  | ok (val : α)
  | ioError
  | crash
deriving DecidableEq, Repr

/-- The persisted checksum CSV: `none` when the file does not exist,
otherwise the list of its parsed rows (each row a list of fields). -/
abbrev CacheFile := Option (List (List String))

/-- `updateCSV`: append one row to the cache CSV, creating the file
(`O_APPEND|O_CREATE`) when it does not exist. -/
def appendRow (c : CacheFile) (r : List String) : CacheFile :=
  some (c.getD [] ++ [r])

/-- Go's `csv.Reader.ReadAll`: succeeds iff every record has the same
number of fields as the first record (`FieldsPerRecord` defaulting). -/
def readAllCSV (rows : List (List String)) : Option (List (List String)) :=
  match rows with
  | [] => some []
  | r :: rest => if rest.all (fun x => x.length == r.length) then some (r :: rest) else none

/-- The cache-loading loop `for _, record := range records {
checksums[record[0]] = record[1] }`: a record with fewer than two
fields makes `record[1]` panic (index out of range). -/
def loadStore : List (List String) → Store → BuildResult Store
  | [], s => .ok s
  | r :: rest, s =>
    match r with
    | f :: d :: _ => loadStore rest (setStore s f d)
    | _ => .crash

/-- The regeneration loop of `generateChecksums`: for each
non-directory entry, hash its full content, record the pair in the
store and append it to the cache CSV immediately. -/
def processEntries (hash : List Nat → String) :
    List DirEntry → Store → CacheFile → BuildResult (Store × CacheFile)
  | [], s, c => .ok (s, c)
  | e :: rest, s, c =>
    if e.isDir then processEntries hash rest s c
    else
      match e.content with
      | none => .ioError
      | some bytes =>
        processEntries hash rest (setStore s e.name (hash bytes))
          (appendRow c [e.name, hash bytes])

/-- Regenerate the store from a directory listing (`none` models an
unreadable directory, `ioutil.ReadDir` failing), starting from the
given cache-file state. -/
def regenerate (hash : List Nat → String) (dir : Option (List DirEntry))
    (c : CacheFile) : BuildResult (Store × CacheFile) :=
  match dir with
  | none => .ioError
  | some es => processEntries hash es [] c

/-- `generateChecksums dir useCache outputDir`, over the model state.
`removeErr` models `os.Remove` of an existing cache file failing for a
reason other than not-existing.  Returns the store together with the
final cache-file state. -/
def generateChecksums (useCache : Bool) (removeErr : Bool)
    (cache : CacheFile) (dir : Option (List DirEntry))
    (hash : List Nat → String) : BuildResult (Store × CacheFile) :=
  if useCache then
    match cache with
    | some rows =>
      match readAllCSV rows with
      | some rs =>
        match loadStore rs [] with
        | .ok s => .ok (s, cache)
        | .ioError => .ioError
        | .crash => .crash
      | none => regenerate hash dir cache
    | none => regenerate hash dir none
  else
    if cache.isSome && removeErr then .ioError
    else regenerate hash dir none

/-! ## Reconciler: `generateCombinedCSV` -/

/-- The union of the file names of two stores, without duplicates
(Go collects the keys of both maps into a set). -/
def unionNames (s1 s2 : Store) : List String :=
  (storeKeys s1 ++ storeKeys s2).dedup

/-- Lexicographic order on strings as sequences of characters; on the
UTF-8 byte representation Go sorts, code-point order and byte-wise
order coincide, so this is the order of `sort.Strings`. -/
def nameLe (a b : String) : Prop := a.data ≤ b.data

instance : DecidableRel nameLe := fun a b =>
  inferInstanceAs (Decidable (a.data ≤ b.data))

instance : IsTotal String nameLe := ⟨fun a b => le_total a.data b.data⟩

instance : IsTrans String nameLe :=
  ⟨fun _ _ _ h h' => le_trans (α := List Char) h h'⟩

/-- Strict lexicographic order on strings. -/
def nameLt (a b : String) : Prop := a.data < b.data

/-- The union sorted with `sort.Strings` (lexicographic string order). -/
def sortedNames (s1 s2 : Store) : List String :=
  List.insertionSort nameLe (unionNames s1 s2)

/-- The data rows of `diff.csv` (the header row is not modelled): one
row per sorted union name whose two looked-up digests differ, each
lookup defaulting to `""` for an absent name. -/
def diffRows (s1 s2 : Store) : List (String × String × String) :=
  (sortedNames s1 s2).filterMap (fun n =>
    if getStore s1 n = getStore s2 n then none
    else some (n, getStore s1 n, getStore s2 n))

/-! ## Diff engine: `compareFilesInCSV`, `generateDiff`, `copyFile` -/

/-- Split a byte sequence into lines; every line keeps its trailing
newline byte (10), and a final chunk without a newline also counts as
a line, exactly as `tail` counts lines. -/
def splitLinesAux : List Nat → List Nat → List (List Nat)
  | [], acc => if acc.isEmpty then [] else [acc.reverse]
  | b :: rest, acc =>
    if b = 10 then (acc.reverse ++ [10]) :: splitLinesAux rest []
    else splitLinesAux rest (b :: acc)

/-- The lines of a byte sequence (line boundary = newline byte). -/
def splitLines (c : List Nat) : List (List Nat) := splitLinesAux c []

/-- `tail -n k`: the concatenation of the last `k` lines. -/
def lastLines (k : Nat) (c : List Nat) : List Nat :=
  ((splitLines c).drop ((splitLines c).length - k)).flatten

/-- The size threshold of `compareFilesInCSV`:
`sizeLimitInBytes := sizeLimit * 1024 * 1024`. -/
def sizeThresholdBytes (sizeMB : Nat) : Nat := sizeMB * 1024 * 1024

/-- The comparable window selected by `generateDiff`: the full
contents when both sizes are within the limit, the last `lineLimit`
lines of each side when either size strictly exceeds it. -/
def extractComparable (c1 c2 : List Nat) (sizeLimit lineLimit : Nat) :
    List Nat × List Nat :=
  if sizeLimit < c1.length || sizeLimit < c2.length then
    (lastLines lineLimit c1, lastLines lineLimit c2)
  else (c1, c2)

/-- An abstract run of `diff -u a b` via `cmd.CombinedOutput()`: the
combined output bytes and whether the command exited successfully
(`err == nil`). -/
abbrev DiffTool := List Nat → List Nat → List Nat × Bool

/-- `output, err := cmd.CombinedOutput(); if err != nil && len(output) == 0
{ return err }`: fail only when the tool errors with empty output,
otherwise the output is the diff content. -/
def runTool (tool : DiffTool) (w : List Nat × List Nat) :
    Except Unit (List Nat) :=
  let r := tool w.1 w.2
  if r.2 = false ∧ r.1 = [] then .error () else .ok r.1

/-- The diff content `generateDiff` produces for two file contents:
select the comparable window, run the external tool on it. -/
def generateDiffContent (tool : DiffTool) (c1 c2 : List Nat)
    (sizeLimit lineLimit : Nat) : Except Unit (List Nat) :=
  runTool tool (extractComparable c1 c2 sizeLimit lineLimit)

/-- The `diffs/` output directory: artifact name to byte content. -/
abbrev ArtifactDir := List (String × List Nat)

/-- Read the artifact written under a name, if any. -/
def lookupArtifact : ArtifactDir → String → Option (List Nat)
  | [], _ => none
  | p :: rest, k => if p.1 = k then some p.2 else lookupArtifact rest k

/-- `os.WriteFile` / `os.Create`: write a file, replacing any previous
content at the same name. -/
def writeArtifact : ArtifactDir → String → List Nat → ArtifactDir
  | [], k, v => [(k, v)]
  | p :: rest, k, v => if p.1 = k then (k, v) :: rest else p :: writeArtifact rest k v

/-- `os.Remove` of an artifact that may or may not exist. -/
def removeArtifact (d : ArtifactDir) (k : String) : ArtifactDir :=
  d.filter (fun p => !(p.1 == k))

/-- `generateDiff` over the artifact directory: remove a pre-existing
artifact at `diffKey`, produce the diff content, write it. -/
def resolveDiffRecord (tool : DiffTool) (diffs : ArtifactDir) (diffKey : String)
    (c1 c2 : List Nat) (sizeLimit lineLimit : Nat) : Except Unit ArtifactDir :=
  let d1 := removeArtifact diffs diffKey
  match generateDiffContent tool c1 c2 sizeLimit lineLimit with
  | .error e => .error e
  | .ok out => .ok (writeArtifact d1 diffKey out)

/-- One iteration of the record loop of `compareFilesInCSV`: `fileA`
and `fileB` are the contents of `dir1/name` and `dir2/name` (`none`
when the file does not exist).  A missing side is resolved by copying
the other side verbatim under the plain name; when both exist the
unified diff is written under `name ++ ".diff"`. -/
def resolveRecord (tool : DiffTool) (fileA fileB : Option (List Nat))
    (diffs : ArtifactDir) (name : String) (sizeLimit lineLimit : Nat) :
    Except Unit ArtifactDir :=
  match fileA, fileB with
  | none, some cB => .ok (writeArtifact diffs name cB)
  | none, none => .error ()
  | some cA, none => .ok (writeArtifact diffs name cA)
  | some cA, some cB => resolveDiffRecord tool diffs (name ++ ".diff") cA cB sizeLimit lineLimit

/-- `compareFilesInCSV` resolves each record with the threshold
`sizeLimit * 1024 * 1024` bytes computed from the `-size` flag. -/
def compareRecord (tool : DiffTool) (fileA fileB : Option (List Nat))
    (diffs : ArtifactDir) (name : String) (sizeMB lineLimit : Nat) :
    Except Unit ArtifactDir :=
  resolveRecord tool fileA fileB diffs name (sizeThresholdBytes sizeMB) lineLimit

/-- The outcome recorded by a `<name>.diff` artifact. -/
inductive DiffOutcome where
  | copiedFromA
  | copiedFromB
  | unifiedDiffProduced
  | noDiffContentButListed
deriving DecidableEq, Repr

/-- Classification of a produced diff artifact by its content. -/
def classifyDiffOutput (out : List Nat) : DiffOutcome :=
  if out.isEmpty then .noDiffContentButListed else .unifiedDiffProduced

/-! ## Orchestrator: `main` -/

/-- Observable outcome of a run of `main`: whether an `Error ...` line
was printed, whether the final summary line was printed, and the
process exit status. -/
structure MainOutcome where
  errorMessagePrinted : Bool
  summaryPrinted : Bool
  exitCode : Nat
deriving DecidableEq, Repr

/-- The control flow of `main` over the results of its four fallible
stages (checksums of side A, checksums of side B, writing `diff.csv`,
resolving the records).  An error return prints a message and `return`s
from `main`, so the process exits with status 0; a Go panic exits with
status 2 without the program's own message. -/
def mainModel (r1 r2 : BuildResult Store) (rcsv : Bool)
    (rcmp : BuildResult Nat) : MainOutcome :=
  match r1 with
  | .crash => ⟨false, false, 2⟩
  | .ioError => ⟨true, false, 0⟩
  | .ok _ =>
    match r2 with
    | .crash => ⟨false, false, 2⟩
    | .ioError => ⟨true, false, 0⟩
    | .ok _ =>
      if rcsv = false then ⟨true, false, 0⟩
      else
        match rcmp with
        | .crash => ⟨false, false, 2⟩
        | .ioError => ⟨true, false, 0⟩
        | .ok _ => ⟨false, true, 0⟩

/-! ## Store and reconciler lemmas -/

theorem memStore_iff_mem_keys (s : Store) (k : String) :
    memStore s k = true ↔ k ∈ storeKeys s := by
  induction s with
  | nil => simp [memStore, storeKeys]
  | cons p rest ih =>
    simp only [memStore, Bool.or_eq_true, beq_iff_eq, ih, storeKeys,
      List.map_cons, List.mem_cons]
    constructor
    · rintro (h | h)
      · exact Or.inl h.symm
      · exact Or.inr h
    · rintro (h | h)
      · exact Or.inl h.symm
      · exact Or.inr h

theorem getStore_of_not_mem {s : Store} {k : String}
    (h : memStore s k = false) : getStore s k = "" := by
  induction s with
  | nil => rfl
  | cons p rest ih =>
    simp only [memStore, Bool.or_eq_false_iff, beq_eq_false_iff_ne, ne_eq] at h
    simp only [getStore, if_neg h.1]
    exact ih h.2

theorem getStore_ne_of_mem {s : Store} {k : String}
    (hv : ∀ p ∈ s, p.2 ≠ "") (h : memStore s k = true) : getStore s k ≠ "" := by
  induction s with
  | nil => simp [memStore] at h
  | cons p rest ih =>
    by_cases hk : p.1 = k
    · simpa [getStore, hk] using hv p (by simp)
    · simp only [memStore, Bool.or_eq_true, beq_iff_eq, hk, false_or] at h
      simpa [getStore, hk] using ih (fun q hq => hv q (by simp [hq])) h

theorem map_fst_filterMap_diff (l : List String) (f g : String → String) :
    (l.filterMap (fun n => if f n = g n then none else some (n, f n, g n))).map
        (fun r => r.1)
      = l.filter (fun n => !(f n == g n)) := by
  induction l with
  | nil => rfl
  | cons a l ih =>
    by_cases h : f a = g a <;>
      simp [List.filterMap_cons, List.filter_cons, h, ih]

theorem diffRows_map_fst (s1 s2 : Store) :
    (diffRows s1 s2).map (fun r => r.1)
      = (sortedNames s1 s2).filter
          (fun n => !(getStore s1 n == getStore s2 n)) :=
  map_fst_filterMap_diff _ _ _

theorem sortedNames_nodup (s1 s2 : Store) : (sortedNames s1 s2).Nodup :=
  ((List.perm_insertionSort nameLe _).nodup_iff).mpr (List.nodup_dedup _)

theorem sortedNames_sorted (s1 s2 : Store) :
    List.Sorted nameLe (sortedNames s1 s2) :=
  List.sorted_insertionSort nameLe _

theorem mem_sortedNames {s1 s2 : Store} {n : String} :
    n ∈ sortedNames s1 s2 ↔ (memStore s1 n = true ∨ memStore s2 n = true) := by
  rw [sortedNames, (List.perm_insertionSort nameLe _).mem_iff, unionNames,
    List.mem_dedup, List.mem_append, memStore_iff_mem_keys, memStore_iff_mem_keys]

theorem sorted_nameLt_of_sorted_nodup {l : List String}
    (hs : List.Sorted nameLe l) (hn : l.Nodup) : List.Sorted nameLt l :=
  List.Pairwise.imp₂
    (fun _ _ hle hne =>
      lt_of_le_of_ne hle (fun hd => hne (String.ext hd)))
    hs hn

/-- C1: the data rows of `diff.csv` contain exactly one row per file
name in the union of the two stores whose two digests differ, an
absent name contributing `""` as its digest (so, valid digests being
nonempty, a name on only one side is always emitted); the rows carry
the looked-up digests, are sorted strictly lexicographically by file
name, and no emitted row has equal digests (in particular none with
both digests present and equal). -/
theorem generateCombinedCSV_rows_spec (s1 s2 : Store)
    (hv1 : ∀ p ∈ s1, p.2 ≠ "") (hv2 : ∀ p ∈ s2, p.2 ≠ "") :
    (∀ n, (memStore s1 n = true ∨ memStore s2 n = true) →
        getStore s1 n ≠ getStore s2 n →
        ((diffRows s1 s2).map (fun r => r.1)).count n = 1)
    ∧ (∀ n, getStore s1 n = getStore s2 n →
        ((diffRows s1 s2).map (fun r => r.1)).count n = 0)
    ∧ (∀ r ∈ diffRows s1 s2,
        (memStore s1 r.1 = true ∨ memStore s2 r.1 = true)
        ∧ r.2.1 = getStore s1 r.1 ∧ r.2.2 = getStore s2 r.1 ∧ r.2.1 ≠ r.2.2)
    ∧ (∀ n, memStore s1 n = false → getStore s1 n = "")
    ∧ (∀ n, memStore s1 n = true → memStore s2 n = false →
        ((diffRows s1 s2).map (fun r => r.1)).count n = 1)
    ∧ (∀ n, memStore s2 n = true → memStore s1 n = false →
        ((diffRows s1 s2).map (fun r => r.1)).count n = 1)
    ∧ List.Sorted nameLt ((diffRows s1 s2).map (fun r => r.1)) := by
  have hnodup : ((diffRows s1 s2).map (fun r => r.1)).Nodup := by
    rw [diffRows_map_fst]
    exact (sortedNames_nodup s1 s2).filter _
  have hmem : ∀ n, n ∈ (diffRows s1 s2).map (fun r => r.1) ↔
      (n ∈ sortedNames s1 s2 ∧ getStore s1 n ≠ getStore s2 n) := by
    intro n
    rw [diffRows_map_fst, List.mem_filter]
    simp
  have hcount1 : ∀ n, (memStore s1 n = true ∨ memStore s2 n = true) →
      getStore s1 n ≠ getStore s2 n →
      ((diffRows s1 s2).map (fun r => r.1)).count n = 1 := by
    intro n hn hne
    exact List.count_eq_one_of_mem hnodup
      ((hmem n).mpr ⟨mem_sortedNames.mpr hn, hne⟩)
  refine ⟨hcount1, ?_, ?_, ?_, ?_, ?_, ?_⟩
  · intro n heq
    exact List.count_eq_zero.mpr (fun hm => ((hmem n).mp hm).2 heq)
  · intro r hr
    rw [diffRows, List.mem_filterMap] at hr
    obtain ⟨a, ha, hfa⟩ := hr
    by_cases h : getStore s1 a = getStore s2 a
    · simp [h] at hfa
    · simp only [h, if_false, Option.some.injEq] at hfa
      subst hfa
      exact ⟨mem_sortedNames.mp ha, rfl, rfl, h⟩
  · exact fun n h => getStore_of_not_mem h
  · intro n h1 h2
    exact hcount1 n (Or.inl h1)
      (by rw [getStore_of_not_mem h2]; exact getStore_ne_of_mem hv1 h1)
  · intro n h2 h1
    exact hcount1 n (Or.inr h2)
      (by rw [getStore_of_not_mem h1]
          exact fun hc => getStore_ne_of_mem hv2 h2 hc.symm)
  · rw [diffRows_map_fst]
    exact (sorted_nameLt_of_sorted_nodup (sortedNames_sorted s1 s2)
      (sortedNames_nodup s1 s2)).filter _

/-- Witness for C1 at two concrete stores: `b.txt` is present only on
side A, so exactly one row carries it. -/
theorem generateCombinedCSV_rows_spec_witness :
    (∀ p ∈ ([("a.txt", "x"), ("b.txt", "y")] : Store), p.2 ≠ "")
    ∧ (∀ p ∈ ([("a.txt", "x"), ("c.txt", "z")] : Store), p.2 ≠ "")
    ∧ ((diffRows [("a.txt", "x"), ("b.txt", "y")]
          [("a.txt", "x"), ("c.txt", "z")]).map (fun r => r.1)).count "b.txt" = 1 :=
  ⟨by decide, by decide,
    (generateCombinedCSV_rows_spec
        [("a.txt", "x"), ("b.txt", "y")] [("a.txt", "x"), ("c.txt", "z")]
        (by decide) (by decide)).1
      "b.txt" (Or.inl (by decide)) (by decide)⟩

/-! ## Diff-engine lemmas -/

theorem flatten_splitLinesAux (c : List Nat) :
    ∀ acc, (splitLinesAux c acc).flatten = acc.reverse ++ c := by
  induction c with
  | nil =>
    intro acc
    by_cases h : acc.isEmpty
    · simp [splitLinesAux, h, List.isEmpty_iff.mp h]
    · simp [splitLinesAux, h]
  | cons b rest ih =>
    intro acc
    by_cases h : b = 10
    · simp [splitLinesAux, h, ih]
    · simp [splitLinesAux, h, ih]

theorem flatten_splitLines (c : List Nat) : (splitLines c).flatten = c := by
  simpa using flatten_splitLinesAux c []

theorem lastLines_suffix (k : Nat) (c : List Nat) :
    ∃ pre, pre ++ lastLines k c = c := by
  refine ⟨((splitLines c).take ((splitLines c).length - k)).flatten, ?_⟩
  rw [lastLines, ← List.flatten_append, List.take_append_drop, flatten_splitLines]

theorem lookupArtifact_write_self (d : ArtifactDir) (k : String) (v : List Nat) :
    lookupArtifact (writeArtifact d k v) k = some v := by
  induction d with
  | nil => simp [writeArtifact, lookupArtifact]
  | cons p rest ih =>
    by_cases h : p.1 = k
    · simp [writeArtifact, lookupArtifact, h]
    · simp [writeArtifact, lookupArtifact, h, ih]

theorem lookupArtifact_write_other (d : ArtifactDir) (k k' : String)
    (v : List Nat) (h : k' ≠ k) :
    lookupArtifact (writeArtifact d k v) k' = lookupArtifact d k' := by
  have hkk' : ¬ (k = k') := fun hh => h hh.symm
  induction d with
  | nil => simp [writeArtifact, lookupArtifact, hkk']
  | cons p rest ih =>
    by_cases hp : p.1 = k
    · simp [writeArtifact, lookupArtifact, hp, hkk']
    · simp only [writeArtifact, if_neg hp, lookupArtifact]
      by_cases hp' : p.1 = k' <;> simp [hp', ih]

theorem lookupArtifact_remove_other (d : ArtifactDir) (k k' : String)
    (h : k' ≠ k) :
    lookupArtifact (removeArtifact d k) k' = lookupArtifact d k' := by
  induction d with
  | nil => simp [removeArtifact, lookupArtifact]
  | cons p rest ih =>
    rw [removeArtifact] at ih ⊢
    by_cases hp : p.1 = k
    · have hpk' : ¬ p.1 = k' := by rw [hp]; exact fun hh => h hh.symm
      rw [List.filter_cons]
      simp only [hp, beq_self_eq_true, Bool.not_true, Bool.false_eq_true, if_false]
      rw [ih, lookupArtifact, if_neg hpk']
    · rw [List.filter_cons]
      have : (!(p.1 == k)) = true := by simp [hp]
      rw [if_pos this, lookupArtifact, lookupArtifact, ih]

/-- C2: for a record whose two files both exist, the comparable window
is the full byte contents of both files when both sizes are at most
`size-mb * 1024 * 1024` bytes, and the last `tailLineCount` lines of
each file (line boundary = newline byte) when either size strictly
exceeds that threshold; `compareFilesInCSV` passes exactly this
threshold down, the diff tool runs on exactly this window, and the
tail window is a suffix of the file. -/
theorem diffEngine_strategy_selection (tool : DiffTool) (c1 c2 : List Nat)
    (sizeMB lineLimit : Nat) :
    (c1.length ≤ sizeThresholdBytes sizeMB → c2.length ≤ sizeThresholdBytes sizeMB →
        extractComparable c1 c2 (sizeThresholdBytes sizeMB) lineLimit = (c1, c2))
    ∧ (sizeThresholdBytes sizeMB < c1.length ∨ sizeThresholdBytes sizeMB < c2.length →
        extractComparable c1 c2 (sizeThresholdBytes sizeMB) lineLimit
          = (lastLines lineLimit c1, lastLines lineLimit c2))
    ∧ sizeThresholdBytes sizeMB = sizeMB * 1024 * 1024
    ∧ (∀ fileA fileB diffs name,
        compareRecord tool fileA fileB diffs name sizeMB lineLimit
          = resolveRecord tool fileA fileB diffs name (sizeMB * 1024 * 1024) lineLimit)
    ∧ (∀ diffs name,
        resolveRecord tool (some c1) (some c2) diffs name
            (sizeThresholdBytes sizeMB) lineLimit
          = resolveDiffRecord tool diffs (name ++ ".diff") c1 c2
              (sizeThresholdBytes sizeMB) lineLimit)
    ∧ (generateDiffContent tool c1 c2 (sizeThresholdBytes sizeMB) lineLimit
        = runTool tool (extractComparable c1 c2 (sizeThresholdBytes sizeMB) lineLimit))
    ∧ (∃ pre, pre ++ lastLines lineLimit c1 = c1)
    ∧ (∃ pre, pre ++ lastLines lineLimit c2 = c2) := by
  refine ⟨?_, ?_, rfl, fun _ _ _ _ => rfl, fun _ _ => rfl, rfl,
    lastLines_suffix _ _, lastLines_suffix _ _⟩
  · intro h1 h2
    rw [extractComparable, if_neg]
    simp [Nat.not_lt.mpr h1, Nat.not_lt.mpr h2]
  · intro h
    rw [extractComparable, if_pos]
    rcases h with h | h <;> simp [h]

/-- Witness for C2 with threshold 0 bytes: a 1-byte file strictly
exceeds it, so the tail window is selected. -/
theorem diffEngine_strategy_selection_witness :
    (sizeThresholdBytes 0 < ([48] : List Nat).length
      ∨ sizeThresholdBytes 0 < ([49, 10, 50] : List Nat).length)
    ∧ extractComparable [48] [49, 10, 50] (sizeThresholdBytes 0) 1
        = (lastLines 1 [48], lastLines 1 [49, 10, 50]) :=
  ⟨Or.inl (by decide),
    (diffEngine_strategy_selection (fun _ _ => ([], true)) [48] [49, 10, 50] 0 1).2.1
      (Or.inl (by decide))⟩

/-- C7: a record whose file exists on exactly one side is resolved by
copying the existing file verbatim into the output directory under the
original file name (no `.diff` suffix): the artifact's byte content
equals the source file's byte content exactly, and no `.diff` artifact
is produced for that record. -/
theorem oneSideOnly_copy_verbatim (tool : DiffTool) (fileA fileB : Option (List Nat))
    (diffs : ArtifactDir) (name : String) (sizeLimit lineLimit : Nat) :
    (∀ c, fileA = some c → fileB = none →
        ∃ d', resolveRecord tool fileA fileB diffs name sizeLimit lineLimit = .ok d'
          ∧ lookupArtifact d' name = some c
          ∧ lookupArtifact d' (name ++ ".diff") = lookupArtifact diffs (name ++ ".diff"))
    ∧ (∀ c, fileA = none → fileB = some c →
        ∃ d', resolveRecord tool fileA fileB diffs name sizeLimit lineLimit = .ok d'
          ∧ lookupArtifact d' name = some c
          ∧ lookupArtifact d' (name ++ ".diff") = lookupArtifact diffs (name ++ ".diff")) := by
  have hne : name ++ ".diff" ≠ name := by
    intro he
    have hlen := congrArg String.length he
    rw [String.length_append] at hlen
    have h5 : (".diff" : String).length = 5 := rfl
    omega
  constructor
  · rintro c rfl rfl
    exact ⟨writeArtifact diffs name c, rfl, lookupArtifact_write_self _ _ _,
      lookupArtifact_write_other _ _ _ _ hne⟩
  · rintro c rfl rfl
    exact ⟨writeArtifact diffs name c, rfl, lookupArtifact_write_self _ _ _,
      lookupArtifact_write_other _ _ _ _ hne⟩

/-- Witness for C7: a file present only on side B is copied verbatim. -/
theorem oneSideOnly_copy_verbatim_witness :
    ∃ d', resolveRecord (fun _ _ => ([], true)) none (some [7, 8]) [] "b.txt" 5 2 = .ok d'
      ∧ lookupArtifact d' "b.txt" = some [7, 8]
      ∧ lookupArtifact d' ("b.txt" ++ ".diff") = lookupArtifact [] ("b.txt" ++ ".diff") :=
  (oneSideOnly_copy_verbatim (fun _ _ => ([], true)) none (some [7, 8]) [] "b.txt" 5 2).2
    [7, 8] rfl rfl

/-- C3: for a record resolved via the tail-window strategy whose two
extracted tail blocks are byte-identical although the whole files
differ, resolution succeeds, the `<name>.diff` artifact is still
written, and its content is empty — the outcome classified
`NoDiffContentButListed`. -/
theorem tailWindow_identical_blocks_empty_diff (tool : DiffTool) (name : String)
    (c1 c2 : List Nat) (diffs : ArtifactDir) (sizeLimit lineLimit : Nat)
    (hbig : sizeLimit < c1.length ∨ sizeLimit < c2.length)
    (_hne : c1 ≠ c2)
    (heq : lastLines lineLimit c1 = lastLines lineLimit c2)
    (hdiff : tool (lastLines lineLimit c1) (lastLines lineLimit c1) = ([], true)) :
    ∃ d', resolveRecord tool (some c1) (some c2) diffs name sizeLimit lineLimit = .ok d'
      ∧ lookupArtifact d' (name ++ ".diff") = some []
      ∧ classifyDiffOutput [] = DiffOutcome.noDiffContentButListed := by
  have hwin : extractComparable c1 c2 sizeLimit lineLimit
      = (lastLines lineLimit c1, lastLines lineLimit c1) := by
    rw [extractComparable, if_pos, ← heq]
    rcases hbig with h | h <;> simp [h]
  refine ⟨writeArtifact (removeArtifact diffs (name ++ ".diff")) (name ++ ".diff") [], ?_, ?_, rfl⟩
  · show resolveDiffRecord tool diffs (name ++ ".diff") c1 c2 sizeLimit lineLimit = _
    rw [resolveDiffRecord, generateDiffContent, hwin, runTool]
    simp [hdiff]
  · exact lookupArtifact_write_self _ _ _

/-- Witness for C3: threshold 1 byte, tail of one line; the files
differ in their first line but share the last line. -/
theorem tailWindow_identical_blocks_empty_diff_witness :
    ∃ d', resolveRecord (fun a b => if a = b then ([], true) else (a ++ b, false))
        (some [48, 10, 49]) (some [50, 10, 49]) [] "big.txt" 1 1 = .ok d'
      ∧ lookupArtifact d' ("big.txt" ++ ".diff") = some []
      ∧ classifyDiffOutput [] = DiffOutcome.noDiffContentButListed :=
  tailWindow_identical_blocks_empty_diff
    (fun a b => if a = b then ([], true) else (a ++ b, false))
    "big.txt" [48, 10, 49] [50, 10, 49] [] 1 1
    (Or.inl (by decide)) (by decide) (by decide) (by decide)

/-- C9: diff resolution fails exactly when the external diff utility
exits with an error and produces no output; when it exits with an
error but produces output, that output is treated as the diff and
written to the artifact, and a failure aborts the record's
resolution. -/
theorem externalToolFailure_iff (tool : DiffTool) (c1 c2 : List Nat)
    (sizeLimit lineLimit : Nat) (diffs : ArtifactDir) (key : String)
    (out : List Nat) (exitOk : Bool)
    (h : tool (extractComparable c1 c2 sizeLimit lineLimit).1
          (extractComparable c1 c2 sizeLimit lineLimit).2 = (out, exitOk)) :
    (generateDiffContent tool c1 c2 sizeLimit lineLimit = .error ()
        ↔ (exitOk = false ∧ out = []))
    ∧ (exitOk = false → out ≠ [] →
        generateDiffContent tool c1 c2 sizeLimit lineLimit = .ok out
        ∧ ∃ d', resolveDiffRecord tool diffs key c1 c2 sizeLimit lineLimit = .ok d'
            ∧ lookupArtifact d' key = some out)
    ∧ (generateDiffContent tool c1 c2 sizeLimit lineLimit = .error () →
        resolveDiffRecord tool diffs key c1 c2 sizeLimit lineLimit = .error ()) := by
  have hg : generateDiffContent tool c1 c2 sizeLimit lineLimit
      = if exitOk = false ∧ out = [] then .error () else .ok out := by
    rw [generateDiffContent, runTool, h]
  refine ⟨?_, ?_, ?_⟩
  · rw [hg]
    by_cases hc : exitOk = false ∧ out = [] <;> simp [hc]
  · intro h1 h2
    have : ¬ (exitOk = false ∧ out = []) := fun hc => h2 hc.2
    rw [hg, if_neg this]
    exact ⟨rfl, writeArtifact (removeArtifact diffs key) key out, by
      rw [resolveDiffRecord, hg, if_neg this], lookupArtifact_write_self _ _ _⟩
  · intro herr
    rw [resolveDiffRecord, herr]

/-- Witness for C9: a tool that errors with empty output makes
resolution fail. -/
theorem externalToolFailure_iff_witness :
    generateDiffContent (fun _ _ => ([], false)) [1] [2] 9 3 = .error () :=
  ((externalToolFailure_iff (fun _ _ => ([], false)) [1] [2] 9 3 [] "k" [] false
      rfl).1).mpr ⟨rfl, rfl⟩

/-- C10: `generateDiff` removes any pre-existing artifact and writes
the freshly produced output in full, so the final artifact content is
a function only of the two contents, the parameters and the tool —
independent of artifacts left by previous runs — and resolving the
same record twice yields byte-identical artifacts. -/
theorem diffArtifact_fresh_write_deterministic (tool : DiffTool) (c1 c2 : List Nat)
    (sizeLimit lineLimit : Nat) (key : String) :
    (∀ diffs out, generateDiffContent tool c1 c2 sizeLimit lineLimit = .ok out →
        ∃ d', resolveDiffRecord tool diffs key c1 c2 sizeLimit lineLimit = .ok d'
          ∧ lookupArtifact d' key = some out)
    ∧ (∀ diffs diffs2 r r2,
        resolveDiffRecord tool diffs key c1 c2 sizeLimit lineLimit = .ok r →
        resolveDiffRecord tool diffs2 key c1 c2 sizeLimit lineLimit = .ok r2 →
        lookupArtifact r key = lookupArtifact r2 key)
    ∧ (∀ diffs r r2,
        resolveDiffRecord tool diffs key c1 c2 sizeLimit lineLimit = .ok r →
        resolveDiffRecord tool r key c1 c2 sizeLimit lineLimit = .ok r2 →
        lookupArtifact r2 key = lookupArtifact r key) := by
  have hok : ∀ diffs r, resolveDiffRecord tool diffs key c1 c2 sizeLimit lineLimit = .ok r →
      ∃ out, generateDiffContent tool c1 c2 sizeLimit lineLimit = .ok out
        ∧ lookupArtifact r key = some out := by
    intro diffs r hr
    rw [resolveDiffRecord] at hr
    cases hg : generateDiffContent tool c1 c2 sizeLimit lineLimit with
    | error e => rw [hg] at hr; cases hr
    | ok out =>
      rw [hg] at hr
      cases hr
      exact ⟨out, rfl, lookupArtifact_write_self _ _ _⟩
  refine ⟨?_, ?_, ?_⟩
  · intro diffs out hout
    exact ⟨writeArtifact (removeArtifact diffs key) key out, by
      rw [resolveDiffRecord, hout], lookupArtifact_write_self _ _ _⟩
  · intro diffs diffs2 r r2 hr hr2
    obtain ⟨o, ho, hl⟩ := hok diffs r hr
    obtain ⟨o2, ho2, hl2⟩ := hok diffs2 r2 hr2
    rw [ho] at ho2
    cases ho2
    rw [hl, hl2]
  · intro diffs r r2 hr hr2
    obtain ⟨o, ho, hl⟩ := hok diffs r hr
    obtain ⟨o2, ho2, hl2⟩ := hok r r2 hr2
    rw [ho] at ho2
    cases ho2
    rw [hl, hl2]

/-- Witness for C10: with an always-succeeding tool, the artifact is
the tool's output regardless of the pre-existing artifact. -/
theorem diffArtifact_fresh_write_deterministic_witness :
    ∃ d', resolveDiffRecord (fun _ _ => ([5], true)) [("a.diff", [9])] "a.diff" [1] [2] 9 3 = .ok d'
      ∧ lookupArtifact d' "a.diff" = some [5] :=
  (diffArtifact_fresh_write_deterministic (fun _ _ => ([5], true)) [1] [2] 9 3 "a.diff").1
    [("a.diff", [9])] [5] rfl

/-! ## Checksum-store lemmas -/

theorem loadStore_append (a b : List (List String)) :
    ∀ s0, loadStore (a ++ b) s0
      = match loadStore a s0 with
        | .ok s => loadStore b s
        | .ioError => .ioError
        | .crash => .crash := by
  induction a with
  | nil => intro s0; rfl
  | cons r rest ih =>
    intro s0
    rcases r with _ | ⟨f, _ | ⟨d, t⟩⟩
    · rfl
    · rfl
    · rw [List.cons_append]
      simp only [loadStore]
      exact ih _

theorem processEntries_load (hash : List Nat → String) :
    ∀ (es : List DirEntry) (s0 : Store) (c0 : CacheFile) (s : Store) (c : CacheFile),
      processEntries hash es s0 c0 = .ok (s, c) →
      (∀ r ∈ c0.getD [], r.length = 2) →
      loadStore (c0.getD []) [] = .ok s0 →
      (∀ r ∈ c.getD [], r.length = 2) ∧ loadStore (c.getD []) [] = .ok s := by
  intro es
  induction es with
  | nil =>
    intro s0 c0 s c h h2 h3
    rw [processEntries] at h
    cases h
    exact ⟨h2, h3⟩
  | cons e rest ih =>
    intro s0 c0 s c h h2 h3
    rw [processEntries] at h
    by_cases hd : e.isDir
    · rw [if_pos hd] at h
      exact ih _ _ _ _ h h2 h3
    · rw [if_neg hd] at h
      cases hc : e.content with
      | none => rw [hc] at h; cases h
      | some bytes =>
        rw [hc] at h
        apply ih _ _ _ _ h
        · intro r hr
          rw [appendRow, Option.getD_some] at hr
          rcases List.mem_append.mp hr with hr | hr
          · exact h2 r hr
          · rw [List.mem_singleton.mp hr]; rfl
        · rw [appendRow, Option.getD_some, loadStore_append, h3]
          rfl

theorem processEntries_filter (hash : List Nat → String) :
    ∀ (es : List DirEntry) (s0 : Store) (c0 : CacheFile),
      processEntries hash es s0 c0
        = processEntries hash (es.filter (fun e => !e.isDir)) s0 c0 := by
  intro es
  induction es with
  | nil => intro s0 c0; rfl
  | cons e rest ih =>
    intro s0 c0
    by_cases hd : e.isDir
    · rw [List.filter_cons]
      simp only [hd, Bool.not_true, Bool.false_eq_true, if_false]
      rw [processEntries, if_pos hd]
      exact ih s0 c0
    · have hnd : (!e.isDir) = true := by simp [hd]
      rw [List.filter_cons, if_pos hnd]
      simp only [processEntries, if_neg hd]
      cases e.content with
      | none => rfl
      | some bytes => exact ih _ _

theorem processEntries_allFiles (hash : List Nat → String) :
    ∀ (fs : List DirEntry) (s0 : Store) (c0 : CacheFile),
      (∀ e ∈ fs, e.isDir = false) → (∀ e ∈ fs, e.content.isSome = true) →
      processEntries hash fs s0 c0
        = .ok (fs.foldl (fun s e => setStore s e.name (hash (e.content.getD []))) s0,
               fs.foldl (fun c e => appendRow c [e.name, hash (e.content.getD [])]) c0) := by
  intro fs
  induction fs with
  | nil => intro s0 c0 _ _; rfl
  | cons e rest ih =>
    intro s0 c0 hdir hcont
    have hd : e.isDir = false := hdir e (by simp)
    obtain ⟨b, hb⟩ := Option.isSome_iff_exists.mp (hcont e (by simp))
    simp only [processEntries, hd, Bool.false_eq_true, if_false, hb,
      List.foldl_cons, Option.getD_some]
    exact ih _ _ (fun x hx => hdir x (by simp [hx])) (fun x hx => hcont x (by simp [hx]))

theorem foldl_appendRow (row : DirEntry → List String) :
    ∀ (fs : List DirEntry) (c0 : CacheFile),
      fs.foldl (fun c e => appendRow c (row e)) c0
        = if fs.isEmpty then c0 else some (c0.getD [] ++ fs.map row) := by
  intro fs
  induction fs with
  | nil => intro c0; rfl
  | cons e rest ih =>
    intro c0
    rw [List.foldl_cons, ih (appendRow c0 (row e))]
    by_cases h : rest.isEmpty
    · have : rest = [] := List.isEmpty_iff.mp h
      subst this
      simp [appendRow]
    · simp only [List.isEmpty_cons, h, if_false, appendRow, Option.getD_some,
        List.map_cons]
      rw [List.append_assoc]
      rfl

/-- The store built by a full regeneration run over a list of files. -/
def buildStoreOf (hash : List Nat → String) (fs : List DirEntry) : Store :=
  fs.foldl (fun s e => setStore s e.name (hash (e.content.getD []))) []

/-- The cache CSV persisted by a regeneration run over a list of
files: `none` (no file ever created) when there are no files, else one
`[name, digest]` row per file in processing order. -/
def cacheRowsOf (hash : List Nat → String) (fs : List DirEntry) : CacheFile :=
  if fs.isEmpty then none
  else some (fs.map (fun e => [e.name, hash (e.content.getD [])]))

theorem generateChecksums_false (removeErr : Bool) (cache : CacheFile)
    (dir : Option (List DirEntry)) (hash : List Nat → String) :
    generateChecksums false removeErr cache dir hash
      = if cache.isSome && removeErr then .ioError else regenerate hash dir none := rfl

theorem generateChecksums_true (removeErr : Bool) (rows : List (List String))
    (dir : Option (List DirEntry)) (hash : List Nat → String) :
    generateChecksums true removeErr (some rows) dir hash
      = match readAllCSV rows with
        | some rs =>
          match loadStore rs [] with
          | .ok s => .ok (s, some rows)
          | .ioError => .ioError
          | .crash => .crash
        | none => regenerate hash dir (some rows) := rfl

/-! ## Claims C4, C5, C8 (checksum store) and C6 (orchestrator) -/

/-- C4, counterexample to the claim as stated: for an empty directory
the non-cached build persists no snapshot, so the cached rebuild does
consult the source directory again (an unreadable directory makes it
fail, and a directory that gained a file yields a different mapping)
instead of loading a persisted CSV verbatim. -/
theorem cacheRoundTrip_counterexample :
    ¬ (∀ (hash : List Nat → String) (cache0 : CacheFile) (entries : List DirEntry)
          (s : Store) (c' : CacheFile),
        generateChecksums false false cache0 (some entries) hash = .ok (s, c') →
        ∀ dir', generateChecksums true false c' dir' hash = .ok (s, c')) := by
  intro hclaim
  have h1 : generateChecksums false false none (some []) (fun _ => "d")
      = .ok ([], none) := rfl
  have h2 := hclaim (fun _ => "d") none [] [] none h1 none
  exact absurd h2 (by decide)

/-- C4 amended: building with `useCache=false` and then rebuilding
with `useCache=true` against the same output directory yields the
identical mapping and the identical persisted snapshot, and the cached
rebuild performs no reads of the source directory or files (its result
is the same for every state of the directory, including an unreadable
one), provided the first build recorded at least one file so that a
snapshot was persisted. -/
theorem cacheRoundTrip_amended (hash : List Nat → String) (removeErr : Bool)
    (cache0 : CacheFile) (entries : List DirEntry) (s : Store) (c' : CacheFile)
    (h : generateChecksums false removeErr cache0 (some entries) hash = .ok (s, c'))
    (hne : c'.isSome = true) :
    ∀ (dir' : Option (List DirEntry)) (removeErr' : Bool),
      generateChecksums true removeErr' c' dir' hash = .ok (s, c') := by
  rw [generateChecksums_false] at h
  by_cases hrc : (cache0.isSome && removeErr) = true
  · rw [if_pos hrc] at h; cases h
  · rw [if_neg hrc] at h
    obtain ⟨hlen, hload⟩ := processEntries_load hash entries [] none s c' h
      (by intro r hr; simp at hr) rfl
    obtain ⟨rows, rfl⟩ := Option.isSome_iff_exists.mp hne
    rw [Option.getD_some] at hlen hload
    have hread : readAllCSV rows = some rows := by
      cases rows with
      | nil => rfl
      | cons r rs =>
        rw [readAllCSV, if_pos]
        apply List.all_eq_true.mpr
        intro x hx
        rw [hlen x (List.mem_cons_of_mem _ hx), hlen r (List.mem_cons_self _ _)]
        exact beq_self_eq_true _
    intro dir' removeErr'
    rw [generateChecksums_true, hread]
    simp only [hload]

/-- Witness for C4 amended: a one-file directory round-trips through
the cache, and the cached rebuild's result is the same even when the
directory has meanwhile become unreadable. -/
theorem cacheRoundTrip_amended_witness :
    generateChecksums false false none (some [⟨"a", false, some [0]⟩]) (fun _ => "d")
        = .ok ([("a", "d")], some [["a", "d"]])
    ∧ generateChecksums true false (some [["a", "d"]]) none (fun _ => "d")
        = .ok ([("a", "d")], some [["a", "d"]]) :=
  ⟨rfl,
    cacheRoundTrip_amended (fun _ => "d") false none [⟨"a", false, some [0]⟩]
      [("a", "d")] (some [["a", "d"]]) rfl rfl none false⟩

/-- C5: the claim promises that every malformed persisted snapshot is
recovered by full regeneration, but a snapshot whose rows all have a
single field (e.g. a cache file containing the line `hello`) parses
successfully under Go's consistent-field-count rule and then
`record[1]` panics with an index-out-of-range, crashing the run; a
snapshot whose rows have three fields is silently loaded as if it were
well-formed instead of being regenerated.  The second conjunct shows
the regeneration result the claim promised for the same state; the
inconsistent-field-count malformation (third conjunct) is the only one
actually recovered. -/
theorem malformedCache_shortRow_crash :
    generateChecksums true false (some [["hello"]])
        (some [⟨"a", false, some [0, 1]⟩]) (fun _ => "d") = .crash
    ∧ generateChecksums false false (some [["hello"]])
        (some [⟨"a", false, some [0, 1]⟩]) (fun _ => "d")
        = .ok ([("a", "d")], some [["a", "d"]])
    ∧ generateChecksums true false (some [["x", "y", "z"]])
        (some [⟨"a", false, some [0, 1]⟩]) (fun _ => "d")
        = .ok ([("x", "y")], some [["x", "y", "z"]])
    ∧ generateChecksums true false (some [["x"], ["y", "z"]])
        (some [⟨"a", false, some [0, 1]⟩]) (fun _ => "d")
        = .ok ([("a", "d")], some [["x"], ["y", "z"], ["a", "d"]]) :=
  ⟨rfl, rfl, rfl, rfl⟩

/-- C6, counterexample to the claim as stated: a stage failure does
print the error message, but `main` merely `return`s, so the Go
process exits with status 0, not non-zero. -/
theorem mainExit_counterexample :
    ¬ (∀ (r1 r2 : BuildResult Store) (rcsv : Bool) (rcmp : BuildResult Nat),
        (r1 = .ioError ∨ r2 = .ioError ∨ rcsv = false ∨ rcmp = .ioError) →
        (mainModel r1 r2 rcsv rcmp).errorMessagePrinted = true
        ∧ (mainModel r1 r2 rcsv rcmp).exitCode ≠ 0) := by
  intro hclaim
  exact (hclaim .ioError (.ok []) true (.ok 0) (Or.inl rfl)).2 rfl

/-- C6 amended: on any stage failure (checksum generation of either
side, reconciliation CSV writing, or diff resolution) the program
prints an error message, skips the summary, and exits with status
zero, because `main` returns normally; on success it prints the
summary count and the output location and exits zero. -/
theorem mainExit_amended (r1 r2 : BuildResult Store) (rcsv : Bool)
    (rcmp : BuildResult Nat) :
    (r1 = .ioError → mainModel r1 r2 rcsv rcmp = ⟨true, false, 0⟩)
    ∧ (∀ s1, r1 = .ok s1 → r2 = .ioError →
        mainModel r1 r2 rcsv rcmp = ⟨true, false, 0⟩)
    ∧ (∀ s1 s2, r1 = .ok s1 → r2 = .ok s2 → rcsv = false →
        mainModel r1 r2 rcsv rcmp = ⟨true, false, 0⟩)
    ∧ (∀ s1 s2, r1 = .ok s1 → r2 = .ok s2 → rcsv = true → rcmp = .ioError →
        mainModel r1 r2 rcsv rcmp = ⟨true, false, 0⟩)
    ∧ (∀ s1 s2 n, r1 = .ok s1 → r2 = .ok s2 → rcsv = true → rcmp = .ok n →
        mainModel r1 r2 rcsv rcmp = ⟨false, true, 0⟩) := by
  refine ⟨?_, ?_, ?_, ?_, ?_⟩ <;> intros <;> subst_vars <;> rfl

/-- Witness for C6 amended: a failure writing `diff.csv` prints the
error and exits 0. -/
theorem mainExit_amended_witness :
    mainModel (.ok []) (.ok []) false (.ok 0) = ⟨true, false, 0⟩ :=
  (mainExit_amended (.ok []) (.ok []) false (.ok 0)).2.2.1 [] [] rfl rfl rfl

/-- C8: with `useCache=false` the build first deletes any prior
persisted snapshot, failing exactly when an existing snapshot's
deletion fails for a reason other than not existing; it then processes
exactly the top-level non-directory entries in order, and after
processing the first `k` files the cache file contains exactly the
`[name, digest]` rows of those `k` files (a partial run leaves a
usable prefix cache). -/
theorem nonCached_delete_and_incremental_cache (hash : List Nat → String)
    (es : List DirEntry) (cache0 : CacheFile) (removeErr : Bool) :
    (cache0.isSome = true → removeErr = true →
        generateChecksums false removeErr cache0 (some es) hash = .ioError)
    ∧ (cache0.isSome = false ∨ removeErr = false →
        generateChecksums false removeErr cache0 (some es) hash
          = processEntries hash (es.filter (fun e => !e.isDir)) [] none)
    ∧ (∀ k, (∀ e ∈ (es.filter (fun e => !e.isDir)).take k, e.content.isSome = true) →
        processEntries hash ((es.filter (fun e => !e.isDir)).take k) [] none
          = .ok (buildStoreOf hash ((es.filter (fun e => !e.isDir)).take k),
                 cacheRowsOf hash ((es.filter (fun e => !e.isDir)).take k))) := by
  refine ⟨?_, ?_, ?_⟩
  · intro h1 h2
    rw [generateChecksums_false]
    simp [h1, h2]
  · intro h
    have hb : (cache0.isSome && removeErr) = false := by
      rcases h with h | h <;> simp [h]
    rw [generateChecksums_false, hb]
    simp only [Bool.false_eq_true, if_false]
    exact processEntries_filter hash es [] none
  · intro k hk
    have hdir : ∀ e ∈ (es.filter (fun e => !e.isDir)).take k, e.isDir = false := by
      intro e he
      have hmem := List.mem_filter.mp (List.mem_of_mem_take he)
      simpa using hmem.2
    rw [processEntries_allFiles hash _ [] none hdir hk, buildStoreOf, cacheRowsOf,
      foldl_appendRow]
    simp

/-- Witness for C8: deleting an existing snapshot fails, so the
non-cached build fails; and processing the first file of a listing
leaves exactly its row in the cache. -/
theorem nonCached_delete_and_incremental_cache_witness :
    generateChecksums false true (some [["x", "y"]])
        (some [⟨"a", false, some [1]⟩, ⟨"b", false, some [2]⟩]) (fun _ => "d")
      = .ioError
    ∧ processEntries (fun _ => "d")
        ((([⟨"a", false, some [1]⟩, ⟨"b", false, some [2]⟩] : List DirEntry).filter
            (fun e => !e.isDir)).take 1) [] none
      = .ok (buildStoreOf (fun _ => "d")
              ((([⟨"a", false, some [1]⟩, ⟨"b", false, some [2]⟩] : List DirEntry).filter
                  (fun e => !e.isDir)).take 1),
             cacheRowsOf (fun _ => "d")
              ((([⟨"a", false, some [1]⟩, ⟨"b", false, some [2]⟩] : List DirEntry).filter
                  (fun e => !e.isDir)).take 1)) :=
  ⟨(nonCached_delete_and_incremental_cache (fun _ => "d")
      [⟨"a", false, some [1]⟩, ⟨"b", false, some [2]⟩] (some [["x", "y"]]) true).1
      rfl rfl,
    (nonCached_delete_and_incremental_cache (fun _ => "d")
      [⟨"a", false, some [1]⟩, ⟨"b", false, some [2]⟩] (some [["x", "y"]]) true).2.2
      1 (by decide)⟩

end InlineCompare
